import Mathlib

/-!
# mongo-init.js: the schema bootstrap script of the file uploader

The repository's only program is `src/main/resources/docker/mongo-init.js`, a
straight-line shell script: it selects the database `fileUploader`, creates one
user, two collections and five indexes, and prints one line.

* Part 1 transcribes the script, statement by statement, as a list of shell
  statements, and gives the shell's execution of such a script over an arbitrary
  datastore (a raised error is not caught anywhere in the script, so it ends
  the run).
* Part 2 is a reference datastore: a catalog of users, collections and indexes
  plus the stored documents, with the datastore's rules for user, collection
  and index creation, for inserts under unique indexes and for expiry.
* Part 3 proves the properties.
-/

namespace MongoInit

/-! ## Part 1: the script and the shell -/

/-- A role grant inside a user document: `{ role: ..., db: ... }`. -/
structure Role where
  role : String
  db : String
deriving DecidableEq, Repr

/-- The argument of `db.createUser`: `{ user: ..., pwd: ..., roles: [...] }`. -/
structure UserSpec where
  user : String
  pwd : String
  roles : List Role
deriving DecidableEq, Repr

/-- The options document of `createIndex`. An option that the script leaves out
has the shell's default: `unique` absent means not unique, `expireAfterSeconds`
absent means no expiry. -/
structure IndexOptions where
  unique : Bool
  expireAfterSeconds : Option Nat
  name : String
deriving DecidableEq, Repr

/-- A key document of `createIndex`, such as `{ clientId: 1, uploadId: 1 }`: the
fields in order, each with its direction. -/
abbrev KeySpec := List (String × Int)

/-- The statements the script is made of. -/
inductive Stmt where
  /-- Statement `db = db.getSiblingDB(name)`. -/
  | getSiblingDB (name : String)
  /-- Statement `db.createUser(u)`. -/
  | createUser (u : UserSpec)
  /-- Statement `db.createCollection(name)`. -/
  | createCollection (name : String)
  /-- Statement `db.<coll>.createIndex(keys, opts)`. -/
  | createIndex (coll : String) (keys : KeySpec) (opts : IndexOptions)
  /-- Statement `print(line)`. -/
  | print (line : String)
deriving DecidableEq, Repr

/-- Lines 3-12 of the script: the user document. -/
def fileUploaderUser : UserSpec :=
  { user := "fileUploader"
    pwd := "password"
    roles := [{ role := "readWrite", db := "fileUploader" }] }

/-- Line 42 of the script: the confirmation line. -/
def successLine : String := "MongoDB initialized successfully"

/-- The script `mongo-init.js`, in source order. -/
def mongoInit : List Stmt :=
  [ .getSiblingDB "fileUploader"
  , .createUser fileUploaderUser
  , .createCollection "upload_requests"
  , .createCollection "file_metadata"
  , .createIndex "upload_requests" [("clientId", 1), ("uploadId", 1)]
      { unique := true, expireAfterSeconds := none, name := "client_upload_unique" }
  , .createIndex "upload_requests" [("status", 1), ("updatedAt", 1)]
      { unique := false, expireAfterSeconds := none, name := "status_updated_idx" }
  , .createIndex "upload_requests" [("createdAt", 1)]
      { unique := false, expireAfterSeconds := some 604800, name := "ttl_idx" }
  , .createIndex "file_metadata" [("uploadRequestId", 1)]
      { unique := true, expireAfterSeconds := none, name := "upload_request_idx" }
  , .createIndex "file_metadata" [("checksum", 1), ("clientId", 1)]
      { unique := false, expireAfterSeconds := none, name := "checksum_client_idx" }
  , .print successLine ]

/-- The datastore as the script sees it: the three administrative calls it
makes, each on a named database, each either returning normally with the new
datastore state or raising an error (a call that fails raises; a call whose
result the shell merely returns has returned normally). The datastore itself
is not part of the repository, so the script is executed over any such
datastore. -/
structure Datastore (σ ε : Type) where
  createUser : String → UserSpec → σ → Except ε σ
  createCollection : String → String → σ → Except ε σ
  createIndex : String → String → KeySpec → IndexOptions → σ → Except ε σ

/-- The shell while the script runs: the global variable `db` (the name of the
current database), the datastore, and the console lines printed so far. -/
structure Shell (σ : Type) where
  db : String
  store : σ
  out : List String

/-- Tells whether a statement is a call into the datastore. -/
def Stmt.isCall : Stmt → Bool
  | .createUser _ => true
  | .createCollection _ => true
  | .createIndex _ _ _ => true
  | _ => false

/-- One statement. `getSiblingDB` rebinds `db` and `print` appends a console
line; neither can raise. The three datastore calls act on the database that
`db` names at that moment. -/
def step {σ ε : Type} (D : Datastore σ ε) : Stmt → Shell σ → Except ε (Shell σ)
  | .getSiblingDB name, sh => .ok { sh with db := name }
  | .createUser u, sh =>
    match D.createUser sh.db u sh.store with
    | .ok s => .ok { sh with store := s }
    | .error e => .error e
  | .createCollection name, sh =>
    match D.createCollection sh.db name sh.store with
    | .ok s => .ok { sh with store := s }
    | .error e => .error e
  | .createIndex coll keys opts, sh =>
    match D.createIndex sh.db coll keys opts sh.store with
    | .ok s => .ok { sh with store := s }
    | .error e => .error e
  | .print line, sh => .ok { sh with out := sh.out ++ [line] }

/-- The record of a run: the shell as the run left it, the statements that
completed (in order), and, when a statement raised, that statement with its
error. -/
structure Run (σ ε : Type) where
  final : Shell σ
  completed : List Stmt
  raised : Option (Stmt × ε)

/-- Runs statements in order. The script has no `try`/`catch`, so the first
statement that raises ends the run: what was done before stays done, the
raising statement changes nothing, and nothing after it is executed. -/
def runFrom {σ ε : Type} (D : Datastore σ ε) : List Stmt → Shell σ → Run σ ε
  | [], sh => { final := sh, completed := [], raised := none }
  | st :: rest, sh =>
    match step D st sh with
    | .ok sh1 =>
      let r := runFrom D rest sh1
      { r with completed := st :: r.completed }
    | .error e => { final := sh, completed := [], raised := some (st, e) }

/-- A run of `mongo-init.js` by a shell started in database `db0`, on datastore
state `s`, with an empty console. -/
def run {σ ε : Type} (D : Datastore σ ε) (db0 : String) (s : σ) : Run σ ε :=
  runFrom D mongoInit { db := db0, store := s, out := [] }

/-! ## Part 2: the reference datastore -/

/-- A field value of a stored document. Timestamps are seconds on the
datastore's clock. -/
inductive Value where
  | null
  | str (s : String)
  | num (n : Int)
  | date (secs : Int)
deriving DecidableEq, Repr

/-- A stored document: its fields in order. The spec fixes no document shape
beyond the indexed fields. -/
abbrev Doc := List (String × Value)

/-- The value of a field; a field the document lacks reads as `null`. -/
def fieldOf (d : Doc) (f : String) : Value :=
  (List.lookup f d).getD Value.null

/-- The index key of a document under a key document: the values of the key
fields, in key order. -/
def keyOf (keys : KeySpec) (d : Doc) : List Value :=
  keys.map fun k => fieldOf d k.1

/-- A user of a database. -/
structure UserEntry where
  db : String
  spec : UserSpec
deriving DecidableEq, Repr

/-- A collection of a database. -/
structure CollEntry where
  db : String
  coll : String
deriving DecidableEq, Repr

/-- An index of a collection, as given to `createIndex`. -/
structure IndexEntry where
  db : String
  coll : String
  keys : KeySpec
  opts : IndexOptions
deriving DecidableEq, Repr

/-- A document stored in a collection. -/
structure DocEntry where
  db : String
  coll : String
  doc : Doc
deriving DecidableEq, Repr

/-- Modelled from the spec: the datastore is an external collaborator and no
code of it is in the repository. Its state is the catalog the spec's section 6
lists (access principals, collections, indexes created by `createIndex`), each
entry tagged with its database, and the application data (the stored
documents). The catalog holds the indexes that were asked for; the primary-key
index that the datastore keeps for every collection by itself is not an entry
of it. -/
structure Store where
  users : List UserEntry
  collections : List CollEntry
  indexes : List IndexEntry
  docs : List DocEntry
deriving DecidableEq, Repr

/-- The empty datastore. -/
def Store.empty : Store :=
  { users := [], collections := [], indexes := [], docs := [] }

/-- The errors of the reference datastore (with the datastore's error codes). -/
inductive MongoError where
  /-- Code 51003: the user exists already in that database. -/
  | userAlreadyExists (user db : String)
  /-- Code 48: the collection exists already. -/
  | namespaceExists (db coll : String)
  /-- Code 86: an index of that name exists with other keys. -/
  | indexKeySpecsConflict (db coll name : String)
  /-- Code 85: an index of that name exists with other options, or an index on
  the same keys exists under another name. -/
  | indexOptionsConflict (db coll name : String)
  /-- Code 11000: a unique index would hold the same key twice. -/
  | duplicateKey (db coll index : String)
deriving DecidableEq, Repr

/-- Tells whether database `db` has a user of that name. -/
def hasUser (s : Store) (db user : String) : Bool :=
  s.users.any fun u => decide (u.db = db ∧ u.spec.user = user)

/-- Tells whether database `db` has that collection. -/
def hasCollection (s : Store) (db coll : String) : Bool :=
  s.collections.any fun c => decide (c.db = db ∧ c.coll = coll)

/-- The indexes of one collection. -/
def indexesOf (s : Store) (db coll : String) : List IndexEntry :=
  s.indexes.filter fun i => decide (i.db = db ∧ i.coll = coll)

/-- The documents of one collection, in insertion order. -/
def docsOf (s : Store) (db coll : String) : List Doc :=
  (s.docs.filter fun e => decide (e.db = db ∧ e.coll = coll)).map fun e => e.doc

/-- Adds the collection to the catalog when it is not there yet (what the
datastore does on the first write to a collection). -/
def ensureCollection (db coll : String) (s : Store) : Store :=
  if hasCollection s db coll then s
  else { s with collections := s.collections ++ [{ db := db, coll := coll }] }

/-- Modelled from the spec: the datastore's `createUser` is not in the
repository. The spec (section 7) lists the creation error of a principal that
exists already and (section 4.1) leaves the exact semantics datastore-defined.
The datastore the script is written for documents them: `db.createUser`
returns a duplicate-user error (code 51003) if the user already exists on the
database, and otherwise adds the user to that database. -/
def createUser (db : String) (u : UserSpec) (s : Store) : Except MongoError Store :=
  if hasUser s db u.user then .error (.userAlreadyExists u.user db)
  else .ok { s with users := s.users ++ [{ db := db, spec := u }] }

/-- Modelled from the spec: the datastore's `createCollection` is not in the
repository. An absent collection is created (section 4.1, step 2). For a
collection that exists already the datastore's releases differ: the older ones
raise error 48, the newer ones accept the call as a no-op; `strict` selects the
former. -/
def createCollection (strict : Bool) (db coll : String) (s : Store) :
    Except MongoError Store :=
  if hasCollection s db coll then
    if strict then .error (.namespaceExists db coll) else .ok s
  else .ok { s with collections := s.collections ++ [{ db := db, coll := coll }] }

/-- Modelled from the spec: the datastore's `createIndex` is not in the
repository. Creating an index that exists already with the identical definition
does not error (section 4.1, step 3); an index of the same name with another
definition is a conflict (section 7), and so is an index on the same keys under
another name; a unique index cannot be built over documents that already share
a key. Otherwise the index is added, and so is its collection when absent. -/
def createIndex (db coll : String) (keys : KeySpec) (opts : IndexOptions) (s : Store) :
    Except MongoError Store :=
  match (indexesOf s db coll).find? fun i => decide (i.opts.name = opts.name) with
  | some i =>
    if i.keys = keys then
      if i.opts = opts then .ok s
      else .error (.indexOptionsConflict db coll opts.name)
    else .error (.indexKeySpecsConflict db coll opts.name)
  | none =>
    if (indexesOf s db coll).any fun i => decide (i.keys = keys) then
      .error (.indexOptionsConflict db coll opts.name)
    else if opts.unique && !decide (((docsOf s db coll).map (keyOf keys)).Nodup) then
      .error (.duplicateKey db coll opts.name)
    else
      .ok { ensureCollection db coll s with
            indexes := s.indexes ++ [{ db := db, coll := coll, keys := keys, opts := opts }] }

/-- The reference datastore, as the script's three calls see it. -/
def mongo (strict : Bool) : Datastore Store MongoError :=
  { createUser := createUser
    createCollection := createCollection strict
    createIndex := createIndex }

/-- The first unique index of the collection that already holds the key of
document `d`, if any. -/
def violated (s : Store) (db coll : String) (d : Doc) : Option IndexEntry :=
  (indexesOf s db coll).find? fun i =>
    i.opts.unique && (docsOf s db coll).any fun e => decide (keyOf i.keys e = keyOf i.keys d)

/-- Modelled from the spec: the datastore's insert is not in the repository.
Under a unique index, inserting a record whose key equals that of a stored
record fails with a uniqueness violation (section 8, properties 2 and 3);
any other insert stores the record. Non-unique indexes reject nothing. -/
def insert (db coll : String) (d : Doc) (s : Store) : Except MongoError Store :=
  match violated s db coll d with
  | some i => .error (.duplicateKey db coll i.opts.name)
  | none =>
    .ok { ensureCollection db coll s with
          docs := s.docs ++ [{ db := db, coll := coll, doc := d }] }

/-- An insert attempt as the client sees it: the datastore afterwards (the
same one when the insert was rejected) and the error, if any. -/
def tryInsert (db coll : String) (d : Doc) (s : Store) : Store × Option MongoError :=
  match insert db coll d s with
  | .ok s1 => (s1, none)
  | .error e => (s, some e)

/-- A sequence of insert attempts into one database, each into a named
collection, rejected ones skipped. -/
def insertAll (db : String) : List (String × Doc) → Store → Store
  | [], s => s
  | (coll, d) :: rest, s => insertAll db rest (tryInsert db coll d s).1

/-- Tells whether index `i` makes document `d` due at clock time `t`: the index
has an expiry offset and a single key field, the document holds a timestamp
there, and the document's age exceeds the offset. -/
def isExpired (t : Int) (i : IndexEntry) (d : Doc) : Bool :=
  match i.opts.expireAfterSeconds, i.keys with
  | some n, [(f, _)] =>
    match fieldOf d f with
    | .date c => decide (c + (n : Int) < t)
    | _ => false
  | _, _ => false

/-- Modelled from the spec: the datastore's background expiry is not in the
repository. One expiry step at clock time `t` (the clock is injected, section
8, property 5) deletes the records that an expiring index of their own
collection makes due: those whose timestamp field exceeds the configured age
(glossary, TTL index). -/
def expire (t : Int) (s : Store) : Store :=
  { s with docs := s.docs.filter fun e =>
      !(indexesOf s e.db e.coll).any fun i => isExpired t i e.doc }

/-! ## Part 2b: auxiliary definitions for the properties -/

/-- The console line a statement prints, if it is a `print`. -/
def Stmt.printed : Stmt → Option String
  | .print line => some line
  | _ => none

/-- A store where the index `ttl_idx` exists already with another expiry
offset (one hour). -/
def staleTtlStore : Store :=
  { users := []
    collections := [{ db := "fileUploader", coll := "upload_requests" }]
    indexes := [{ db := "fileUploader", coll := "upload_requests", keys := [("createdAt", 1)],
                  opts := { unique := false, expireAfterSeconds := some 3600, name := "ttl_idx" } }]
    docs := [] }

/-- The effect a catalog call on database `db` may have: the documents stay as
they are, and users, collections and indexes are only added, each in `db`. -/
structure Grows (db : String) (s s1 : Store) : Prop where
  docs : s1.docs = s.docs
  users : ∃ us, s1.users = s.users ++ us ∧ ∀ u ∈ us, u.db = db
  collections : ∃ cs, s1.collections = s.collections ++ cs ∧ ∀ c ∈ cs, c.db = db
  indexes : ∃ ixs, s1.indexes = s.indexes ++ ixs ∧ ∀ i ∈ ixs, i.db = db

/-- Tells whether a statement rebinds the shell's `db`. -/
def Stmt.rebinds : Stmt → Bool
  | .getSiblingDB _ => true
  | _ => false

/-- The user a statement creates, if it is a `createUser`. -/
def Stmt.userCreated : Stmt → Option UserSpec
  | .createUser u => some u
  | _ => none

/-- The catalog of section 6 of the spec: the one user, the two collections
and the five indexes, all in database `fileUploader`, and no documents. -/
def initializedStore : Store :=
  { users :=
      [ { db := "fileUploader",
          spec := { user := "fileUploader", pwd := "password",
                    roles := [{ role := "readWrite", db := "fileUploader" }] } } ]
    collections :=
      [ { db := "fileUploader", coll := "upload_requests" },
        { db := "fileUploader", coll := "file_metadata" } ]
    indexes :=
      [ { db := "fileUploader", coll := "upload_requests",
          keys := [("clientId", 1), ("uploadId", 1)],
          opts := { unique := true, expireAfterSeconds := none,
                    name := "client_upload_unique" } },
        { db := "fileUploader", coll := "upload_requests",
          keys := [("status", 1), ("updatedAt", 1)],
          opts := { unique := false, expireAfterSeconds := none,
                    name := "status_updated_idx" } },
        { db := "fileUploader", coll := "upload_requests",
          keys := [("createdAt", 1)],
          opts := { unique := false, expireAfterSeconds := some 604800,
                    name := "ttl_idx" } },
        { db := "fileUploader", coll := "file_metadata",
          keys := [("uploadRequestId", 1)],
          opts := { unique := true, expireAfterSeconds := none,
                    name := "upload_request_idx" } },
        { db := "fileUploader", coll := "file_metadata",
          keys := [("checksum", 1), ("clientId", 1)],
          opts := { unique := false, expireAfterSeconds := none,
                    name := "checksum_client_idx" } } ]
    docs := [] }

/-- A store with a user, a collection, an index and a document in a database
`inventory`, and a document in `fileUploader.upload_requests`. -/
def sampleStore : Store :=
  { users := [{ db := "inventory",
                spec := { user := "clerk", pwd := "secret",
                          roles := [{ role := "read", db := "inventory" }] } }]
    collections := [{ db := "inventory", coll := "items" },
                    { db := "fileUploader", coll := "upload_requests" }]
    indexes := [{ db := "inventory", coll := "items", keys := [("sku", 1)],
                  opts := { unique := true, expireAfterSeconds := none, name := "sku_idx" } }]
    docs := [{ db := "inventory", coll := "items", doc := [("sku", Value.num 7)] },
             { db := "fileUploader", coll := "upload_requests",
               doc := [("clientId", Value.str "c1"), ("uploadId", Value.str "u1")] }] }

/-- A store whose only content is the user `fileUploader` of database
`fileUploader`. -/
def principalOnlyStore : Store :=
  { users := [{ db := "fileUploader", spec := fileUploaderUser }]
    collections := []
    indexes := []
    docs := [] }

/-- The datastore right after the script ran on the empty datastore. -/
def initialized (strict : Bool) (db0 : String) : Store :=
  (run (mongo strict) db0 Store.empty).final.store

/-- Two records have the same (clientId, uploadId). -/
def sameUpload (a b : Doc) : Prop :=
  fieldOf a "clientId" = fieldOf b "clientId" ∧ fieldOf a "uploadId" = fieldOf b "uploadId"

/-- Two records have the same uploadRequestId. -/
def sameRequest (a b : Doc) : Prop :=
  fieldOf a "uploadRequestId" = fieldOf b "uploadRequestId"

instance (a b : Doc) : Decidable (sameUpload a b) := by
  unfold sameUpload; infer_instance

instance (a b : Doc) : Decidable (sameRequest a b) := by
  unfold sameRequest; infer_instance

/-- The store an accepted insert leaves. -/
def stored (db coll : String) (d : Doc) (s : Store) : Store :=
  { ensureCollection db coll s with docs := s.docs ++ [{ db := db, coll := coll, doc := d }] }

/-- What holds of a store after initialization and any inserts: the indexes
are the five of the script, no two records of `upload_requests` share
(clientId, uploadId), and no two records of `file_metadata` share
uploadRequestId. -/
structure Consistent (s : Store) : Prop where
  indexes : s.indexes = initializedStore.indexes
  uploads : (docsOf s "fileUploader" "upload_requests").Pairwise fun a b => ¬ sameUpload a b
  metadata : (docsOf s "fileUploader" "file_metadata").Pairwise fun a b => ¬ sameRequest a b

/-- Two upload requests of client `c1`, and a second attempt at the first. -/
def sampleUploads : List (String × Doc) :=
  [ ("upload_requests", [("clientId", Value.str "c1"), ("uploadId", Value.str "u1")]),
    ("upload_requests", [("clientId", Value.str "c1"), ("uploadId", Value.str "u2")]),
    ("upload_requests", [("clientId", Value.str "c1"), ("uploadId", Value.str "u1"),
      ("status", Value.str "DONE")]) ]

/-- One metadata record of client `c1`, for upload request `r1`. -/
def sampleMetadata : List (String × Doc) :=
  [ ("file_metadata", [("uploadRequestId", Value.str "r1"), ("checksum", Value.str "abc"),
      ("clientId", Value.str "c1")]) ]

/-- An upload request created at time 1000. -/
def staleRequest : DocEntry :=
  { db := "fileUploader", coll := "upload_requests",
    doc := [("clientId", Value.str "c1"), ("uploadId", Value.str "u1"),
            ("createdAt", Value.date 1000)] }

/-- The initialized store with three records: the upload request created at
time 1000, one created at time 500000, and a metadata record. -/
def sampleExpiryStore : Store :=
  { initializedStore with
    docs :=
      [ staleRequest,
        { db := "fileUploader", coll := "upload_requests",
          doc := [("clientId", Value.str "c1"), ("uploadId", Value.str "u2"),
                  ("createdAt", Value.date 500000)] },
        { db := "fileUploader", coll := "file_metadata",
          doc := [("uploadRequestId", Value.str "r1"), ("createdAt", Value.date 1000)] } ] }

/-! ## Part 3: properties

### The shell: runs of any script over any datastore -/

/-- A statement that raises is a datastore call. -/
theorem step_error_isCall {σ ε : Type} (D : Datastore σ ε) (st : Stmt) (sh : Shell σ) (e : ε)
    (h : step D st sh = .error e) : st.isCall = true := by
  cases st <;> simp_all [step, Stmt.isCall]

/-- Every run either completes all statements without an error, or stops in
front of one statement of the script, which raised in the shell state the run
ended in. -/
theorem runFrom_cases {σ ε : Type} (D : Datastore σ ε) (l : List Stmt) (sh : Shell σ) :
    ((runFrom D l sh).raised = none ∧ (runFrom D l sh).completed = l) ∨
    ∃ st e post, l = (runFrom D l sh).completed ++ st :: post ∧
      (runFrom D l sh).raised = some (st, e) ∧
      step D st (runFrom D l sh).final = .error e := by
  induction l generalizing sh with
  | nil => left; simp [runFrom]
  | cons a rest ih =>
    cases h : step D a sh with
    | error e =>
      right
      refine ⟨a, e, rest, ?_, ?_, ?_⟩ <;> simp [runFrom, h]
    | ok sh1 =>
      rcases ih sh1 with ⟨h1, h2⟩ | ⟨st, e, post, h1, h2, h3⟩
      · left
        simp [runFrom, h, h1, h2]
      · right
        refine ⟨st, e, post, ?_, ?_, ?_⟩
        · simp only [runFrom, h, List.cons_append]
          exact congrArg (a :: ·) h1
        · simpa [runFrom, h] using h2
        · simpa [runFrom, h] using h3

/-- The console after a run: the lines before it, then the lines of the
completed `print` statements. -/
theorem runFrom_out {σ ε : Type} (D : Datastore σ ε) (l : List Stmt) (sh : Shell σ) :
    (runFrom D l sh).final.out = sh.out ++ (runFrom D l sh).completed.filterMap Stmt.printed := by
  induction l generalizing sh with
  | nil => simp [runFrom]
  | cons a rest ih =>
    cases h : step D a sh with
    | error e => simp [runFrom, h]
    | ok sh1 =>
      have h2 := ih sh1
      simp only [runFrom, h]
      rw [h2]
      cases a with
      | getSiblingDB n =>
        simp only [step] at h
        injection h with h
        subst h
        simp [Stmt.printed]
      | createUser u =>
        simp only [step] at h
        split at h
        · injection h with h
          subst h
          simp [Stmt.printed]
        · cases h
      | createCollection n =>
        simp only [step] at h
        split at h
        · injection h with h
          subst h
          simp [Stmt.printed]
        · cases h
      | createIndex c k o =>
        simp only [step] at h
        split at h
        · injection h with h
          subst h
          simp [Stmt.printed]
        · cases h
      | print line =>
        simp only [step] at h
        injection h with h
        subst h
        simp [Stmt.printed]

/-- Running a script that is split in front of a statement: when the part
before it completes and the statement raises, the run is exactly the run of the
first part with that error. -/
theorem runFrom_append_error {σ ε : Type} (D : Datastore σ ε) (pre post : List Stmt)
    (st : Stmt) (sh sh1 : Shell σ) (e : ε)
    (hpre : runFrom D pre sh = { final := sh1, completed := pre, raised := none })
    (hfail : step D st sh1 = .error e) :
    runFrom D (pre ++ st :: post) sh =
      { final := sh1, completed := pre, raised := some (st, e) } := by
  induction pre generalizing sh with
  | nil =>
    simp only [runFrom] at hpre
    have : sh = sh1 := by injection hpre
    subst this
    simp [runFrom, hfail]
  | cons a rest ih =>
    cases h : step D a sh with
    | error e1 => simp [runFrom, h] at hpre
    | ok sh2 =>
      simp only [runFrom, h] at hpre
      have hrest : runFrom D rest sh2 = { final := sh1, completed := rest, raised := none } := by
        cases hr : runFrom D rest sh2 with
        | mk f c r =>
          rw [hr] at hpre
          simp at hpre
          obtain ⟨h1, h2, h3⟩ := hpre
          simp [h1, h2, h3]
      have := ih sh2 hrest
      simp [runFrom, h, this]

/-! ### The script over any datastore -/

/-- The script holds no statement twice. -/
theorem mongoInit_nodup : mongoInit.Nodup := by decide

/-- In front of any statement of the script but the last there is no `print`:
the only `print` is the last statement. -/
theorem no_print_before (pre post : List Stmt) (st : Stmt)
    (h : mongoInit = pre ++ st :: post) : pre.filterMap Stmt.printed = [] := by
  have hlen : pre.length < 10 := by
    have := congrArg List.length h
    simp [mongoInit] at this
    omega
  have htake : pre = mongoInit.take pre.length := by
    rw [h]; simp
  rw [htake]
  generalize pre.length = k at hlen
  interval_cases k <;> rfl

/-- C6: if a step of the script fails, the run aborts at that step. Over any
datastore, from any start: when the statements in front of a statement of the
script complete and that statement raises error `e`, the run records exactly
that statement with exactly `e`, the completed statements are exactly the ones
in front of it (so no later statement is executed and the failing one is not
tried again), the run ends in the state the failing statement was started in,
the failing statement is one of the eight datastore calls, and the console is
empty: the success line, which comes later in the script, is not printed. -/
theorem abort_at_failing_step {σ ε : Type} (D : Datastore σ ε) (db0 : String) (s : σ)
    (pre post : List Stmt) (st : Stmt) (sh1 : Shell σ) (e : ε)
    (hsplit : mongoInit = pre ++ st :: post)
    (hpre : runFrom D pre { db := db0, store := s, out := [] } =
      { final := sh1, completed := pre, raised := none })
    (hfail : step D st sh1 = .error e) :
    run D db0 s = { final := sh1, completed := pre, raised := some (st, e) } ∧
    st.isCall = true ∧
    (run D db0 s).final.out = [] ∧
    Stmt.print successLine ∈ post := by
  have hrun : run D db0 s = { final := sh1, completed := pre, raised := some (st, e) } := by
    unfold run
    rw [hsplit]
    exact runFrom_append_error D pre post st _ sh1 e hpre hfail
  have hcall := step_error_isCall D st sh1 e hfail
  refine ⟨hrun, hcall, ?_, ?_⟩
  · have hout := runFrom_out D pre { db := db0, store := s, out := [] }
    rw [hpre] at hout
    rw [hrun]
    simpa [no_print_before pre post st hsplit] using hout
  · have hmem : Stmt.print successLine ∈ pre ++ st :: post := by
      rw [← hsplit]; decide
    rcases List.mem_append.1 hmem with h1 | h1
    · have h2 : successLine ∈ pre.filterMap Stmt.printed :=
        List.mem_filterMap.2 ⟨_, h1, rfl⟩
      rw [no_print_before pre post st hsplit] at h2
      cases h2
    · rcases List.mem_cons.1 h1 with h2 | h2
      · rw [← h2] at hcall
        simp [Stmt.isCall] at hcall
      · exact h2

/-- C6, at a concrete input: on a datastore where `ttl_idx` exists with another
expiry offset, the first six statements complete, the seventh (the creation of
`ttl_idx`) raises an index conflict, and the run stops there. -/
theorem abort_at_failing_step_witness :
    (mongoInit = mongoInit.take 6 ++
        Stmt.createIndex "upload_requests" [("createdAt", 1)]
          { unique := false, expireAfterSeconds := some 604800, name := "ttl_idx" } ::
        mongoInit.drop 7) ∧
    (run (mongo false) "admin" staleTtlStore).raised =
      some (Stmt.createIndex "upload_requests" [("createdAt", 1)]
          { unique := false, expireAfterSeconds := some 604800, name := "ttl_idx" },
        MongoError.indexOptionsConflict "fileUploader" "upload_requests" "ttl_idx") ∧
    (run (mongo false) "admin" staleTtlStore).completed = mongoInit.take 6 ∧
    (run (mongo false) "admin" staleTtlStore).final.out = [] :=
  have h := abort_at_failing_step (mongo false) "admin" staleTtlStore
    (mongoInit.take 6) (mongoInit.drop 7)
    (Stmt.createIndex "upload_requests" [("createdAt", 1)]
      { unique := false, expireAfterSeconds := some 604800, name := "ttl_idx" })
    (runFrom (mongo false) (mongoInit.take 6)
      { db := "admin", store := staleTtlStore, out := [] }).final
    (MongoError.indexOptionsConflict "fileUploader" "upload_requests" "ttl_idx")
    rfl rfl rfl
  ⟨rfl, by rw [h.1], by rw [h.1], h.2.2.1⟩

/-- C9: the success signal is emitted only once all steps complete. Over any
datastore, from any start: the console after the run is either empty or exactly
the one line `MongoDB initialized successfully`; the line is there if and only
if no statement raised, if and only if all eight datastore calls of the script
(the user creation, the two collection creations, the five index creations)
completed; and when it is there, the `print` is the last statement that
completed, after all eight calls. -/
theorem success_line_iff_all_steps {σ ε : Type} (D : Datastore σ ε) (db0 : String) (s : σ) :
    ((run D db0 s).final.out = [] ∨ (run D db0 s).final.out = [successLine]) ∧
    ((run D db0 s).final.out = [successLine] ↔ (run D db0 s).raised = none) ∧
    ((run D db0 s).final.out = [successLine] ↔
      ∀ st ∈ mongoInit, st.isCall = true → st ∈ (run D db0 s).completed) ∧
    ((run D db0 s).final.out = [successLine] →
      ∃ calls, (run D db0 s).completed = calls ++ [Stmt.print successLine] ∧
        ∀ st ∈ mongoInit, st.isCall = true → st ∈ calls) ∧
    (mongoInit.filter Stmt.isCall).length = 8 := by
  have hout := runFrom_out D mongoInit { db := db0, store := s, out := [] }
  rcases runFrom_cases D mongoInit { db := db0, store := s, out := [] } with
    ⟨h1, h2⟩ | ⟨st, e, post, h1, h2, h3⟩
  · have hfin : (run D db0 s).final.out = [successLine] := by
      unfold run
      rw [hout, h2]
      rfl
    have hall : ∀ st ∈ mongoInit, st.isCall = true → st ∈ (run D db0 s).completed := by
      intro st hst _
      unfold run
      rw [h2]
      exact hst
    refine ⟨Or.inr hfin, ⟨fun _ => h1, fun _ => hfin⟩, ⟨fun _ => hall, fun _ => hfin⟩, ?_, rfl⟩
    intro _
    refine ⟨mongoInit.dropLast, ?_, by decide⟩
    unfold run
    rw [h2]
    rfl
  · have hfin : (run D db0 s).final.out = [] := by
      unfold run
      rw [hout, no_print_before _ post st h1]
      rfl
    have hne : (run D db0 s).final.out ≠ [successLine] := by
      rw [hfin]; exact List.noConfusion
    have hcall := step_error_isCall D st _ e h3
    have hmem : st ∈ mongoInit := by
      rw [h1]; simp
    have hnot : st ∉ (run D db0 s).completed := by
      have hnd := mongoInit_nodup
      rw [h1] at hnd
      have := (List.nodup_append.1 hnd).2.2
      intro hc
      exact this hc (List.mem_cons_self _ _)
    refine ⟨Or.inl hfin, ⟨fun h => absurd h hne, fun h => ?_⟩,
      ⟨fun h => absurd h hne, fun h => absurd (h st hmem hcall) hnot⟩,
      fun h => absurd h hne, rfl⟩
    unfold run at h
    rw [h2] at h
    cases h

/-! ### The reference datastore: what each call changes -/

theorem Grows.refl (db : String) (s : Store) : Grows db s s :=
  ⟨rfl, ⟨[], by simp⟩, ⟨[], by simp⟩, ⟨[], by simp⟩⟩

theorem Grows.trans {db : String} {s s1 s2 : Store} (h1 : Grows db s s1) (h2 : Grows db s1 s2) :
    Grows db s s2 := by
  obtain ⟨d1, ⟨us1, hu1, hu1db⟩, ⟨cs1, hc1, hc1db⟩, ⟨is1, hi1, hi1db⟩⟩ := h1
  obtain ⟨d2, ⟨us2, hu2, hu2db⟩, ⟨cs2, hc2, hc2db⟩, ⟨is2, hi2, hi2db⟩⟩ := h2
  refine ⟨d2.trans d1, ⟨us1 ++ us2, ?_, ?_⟩, ⟨cs1 ++ cs2, ?_, ?_⟩, ⟨is1 ++ is2, ?_, ?_⟩⟩
  · rw [hu2, hu1, List.append_assoc]
  · intro u hu
    rcases List.mem_append.1 hu with h | h
    · exact hu1db u h
    · exact hu2db u h
  · rw [hc2, hc1, List.append_assoc]
  · intro c hc
    rcases List.mem_append.1 hc with h | h
    · exact hc1db c h
    · exact hc2db c h
  · rw [hi2, hi1, List.append_assoc]
  · intro i hi
    rcases List.mem_append.1 hi with h | h
    · exact hi1db i h
    · exact hi2db i h

theorem ensureCollection_grows (db coll : String) (s : Store) :
    Grows db s (ensureCollection db coll s) := by
  unfold ensureCollection
  split
  · exact Grows.refl db s
  · exact ⟨rfl, ⟨[], by simp⟩, ⟨[{ db := db, coll := coll }], by simp⟩, ⟨[], by simp⟩⟩

/-- A successful `createUser` adds exactly the one user, to that database. -/
theorem createUser_ok {db : String} {u : UserSpec} {s s1 : Store}
    (h : createUser db u s = .ok s1) :
    s1 = { s with users := s.users ++ [{ db := db, spec := u }] } := by
  unfold createUser at h
  split at h
  · cases h
  · injection h with h
    exact h.symm

/-- The only way `createUser` raises: the database has a user of that name. -/
theorem createUser_error {db : String} {u : UserSpec} {s : Store} {e : MongoError}
    (h : createUser db u s = .error e) :
    hasUser s db u.user = true ∧ e = .userAlreadyExists u.user db := by
  unfold createUser at h
  split at h
  · rename_i hu
    injection h with h
    exact ⟨hu, h.symm⟩
  · cases h

theorem createUser_grows {db : String} {u : UserSpec} {s s1 : Store}
    (h : createUser db u s = .ok s1) : Grows db s s1 := by
  rw [createUser_ok h]
  exact ⟨rfl, ⟨[{ db := db, spec := u }], by simp⟩, ⟨[], by simp⟩, ⟨[], by simp⟩⟩

theorem createCollection_grows {strict : Bool} {db coll : String} {s s1 : Store}
    (h : createCollection strict db coll s = .ok s1) : Grows db s s1 := by
  unfold createCollection at h
  split at h
  · split at h
    · cases h
    · injection h with h
      subst h
      exact Grows.refl db s
  · injection h with h
    subst h
    exact ⟨rfl, ⟨[], by simp⟩, ⟨[{ db := db, coll := coll }], by simp⟩, ⟨[], by simp⟩⟩

theorem createIndex_grows {db coll : String} {keys : KeySpec} {opts : IndexOptions}
    {s s1 : Store} (h : createIndex db coll keys opts s = .ok s1) : Grows db s s1 := by
  unfold createIndex at h
  split at h
  · split at h
    · split at h
      · injection h with h
        subst h
        exact Grows.refl db s
      · cases h
    · cases h
  · split at h
    · cases h
    · split at h
      · cases h
      · injection h with h
        subst h
        obtain ⟨hd, hu, hc, _⟩ := ensureCollection_grows db coll s
        exact ⟨hd, hu, hc,
          ⟨[{ db := db, coll := coll, keys := keys, opts := opts }], by simp⟩⟩

/-- One statement that does not rebind `db`, executed on the reference
datastore: `db` stays and the store grows within that database only. -/
theorem step_grows {strict : Bool} {st : Stmt} {sh sh1 : Shell Store}
    (hst : st.rebinds = false) (h : step (mongo strict) st sh = .ok sh1) :
    sh1.db = sh.db ∧ Grows sh.db sh.store sh1.store := by
  cases st with
  | getSiblingDB n => simp [Stmt.rebinds] at hst
  | createUser u =>
    simp only [step, mongo] at h
    split at h
    · rename_i s1 hs
      injection h with h
      subst h
      exact ⟨rfl, createUser_grows hs⟩
    · cases h
  | createCollection n =>
    simp only [step, mongo] at h
    split at h
    · rename_i s1 hs
      injection h with h
      subst h
      exact ⟨rfl, createCollection_grows hs⟩
    · cases h
  | createIndex c k o =>
    simp only [step, mongo] at h
    split at h
    · rename_i s1 hs
      injection h with h
      subst h
      exact ⟨rfl, createIndex_grows hs⟩
    · cases h
  | print l =>
    simp only [step] at h
    injection h with h
    subst h
    exact ⟨rfl, Grows.refl _ _⟩

/-- A run of statements none of which rebinds `db`: whether it completes or
stops at an error, the store has only grown within the database `db` names. -/
theorem runFrom_grows (strict : Bool) (l : List Stmt) (sh : Shell Store)
    (hl : ∀ st ∈ l, st.rebinds = false) :
    Grows sh.db sh.store (runFrom (mongo strict) l sh).final.store := by
  induction l generalizing sh with
  | nil => exact Grows.refl _ _
  | cons a rest ih =>
    cases h : step (mongo strict) a sh with
    | error e =>
      simp only [runFrom, h]
      exact Grows.refl _ _
    | ok sh1 =>
      obtain ⟨hdb, hg⟩ := step_grows (hl a (List.mem_cons_self _ _)) h
      have h2 := ih sh1 (fun st hst => hl st (List.mem_cons_of_mem _ hst))
      rw [hdb] at h2
      simp only [runFrom, h]
      exact hg.trans h2

/-- The script on the reference datastore, from any start: the store has only
grown, and only within the database `fileUploader`. -/
theorem run_grows (strict : Bool) (db0 : String) (s : Store) :
    Grows "fileUploader" s (run (mongo strict) db0 s).final.store := by
  have h := runFrom_grows strict mongoInit.tail
    { db := "fileUploader", store := s, out := [] } (by decide)
  exact h

theorem ensureCollection_users (db coll : String) (s : Store) :
    (ensureCollection db coll s).users = s.users := by
  unfold ensureCollection
  split <;> rfl

theorem createCollection_users {strict : Bool} {db coll : String} {s s1 : Store}
    (h : createCollection strict db coll s = .ok s1) : s1.users = s.users := by
  unfold createCollection at h
  split at h
  · split at h
    · cases h
    · injection h with h
      subst h
      rfl
  · injection h with h
    subst h
    rfl

theorem createIndex_users {db coll : String} {keys : KeySpec} {opts : IndexOptions}
    {s s1 : Store} (h : createIndex db coll keys opts s = .ok s1) : s1.users = s.users := by
  unfold createIndex at h
  split at h
  · split at h
    · split at h
      · injection h with h
        subst h
        rfl
      · cases h
    · cases h
  · split at h
    · cases h
    · split at h
      · cases h
      · injection h with h
        subst h
        exact ensureCollection_users db coll s

/-- Statements other than `createUser` leave the users as they are. -/
theorem runFrom_users (strict : Bool) (l : List Stmt) (sh : Shell Store)
    (hl : ∀ st ∈ l, st.userCreated = none) :
    (runFrom (mongo strict) l sh).final.store.users = sh.store.users := by
  induction l generalizing sh with
  | nil => rfl
  | cons a rest ih =>
    cases h : step (mongo strict) a sh with
    | error e => simp only [runFrom, h]
    | ok sh1 =>
      have h2 := ih sh1 (fun st hst => hl st (List.mem_cons_of_mem _ hst))
      simp only [runFrom, h]
      rw [h2]
      have ha := hl a (List.mem_cons_self _ _)
      cases a with
      | getSiblingDB n =>
        simp only [step] at h
        injection h with h
        subst h
        rfl
      | createUser u => simp [Stmt.userCreated] at ha
      | createCollection n =>
        simp only [step, mongo] at h
        split at h
        · rename_i s1 hs
          injection h with h
          subst h
          exact createCollection_users hs
        · cases h
      | createIndex c k o =>
        simp only [step, mongo] at h
        split at h
        · rename_i s1 hs
          injection h with h
          subst h
          exact createIndex_users hs
        · cases h
      | print line =>
        simp only [step] at h
        injection h with h
        subst h
        rfl

/-! ### The script on the reference datastore -/

/-- The script on the empty reference datastore, whatever the release and the
shell's start database: the whole run, as one record. -/
theorem run_empty (strict : Bool) (db0 : String) :
    run (mongo strict) db0 Store.empty =
      { final := { db := "fileUploader", store := initializedStore, out := [successLine] }
        completed := mongoInit
        raised := none } := rfl

/-- C1: running the script on an empty datastore completes without error (all
ten statements complete, none raises) and leaves exactly the catalog of section
6: in database `fileUploader` the two collections `upload_requests` and
`file_metadata` and the five indexes `client_upload_unique` (unique, clientId
then uploadId, on upload_requests), `status_updated_idx` (not unique, status
then updatedAt, on upload_requests), `ttl_idx` (createdAt, expiry 604800 s, on
upload_requests), `upload_request_idx` (unique, uploadRequestId, on
file_metadata), `checksum_client_idx` (not unique, checksum then clientId, on
file_metadata); no other collection or index exists in any database. -/
theorem init_on_empty_datastore (strict : Bool) (db0 : String) :
    (run (mongo strict) db0 Store.empty).raised = none ∧
    (run (mongo strict) db0 Store.empty).completed = mongoInit ∧
    (run (mongo strict) db0 Store.empty).final.store.collections =
      [ { db := "fileUploader", coll := "upload_requests" },
        { db := "fileUploader", coll := "file_metadata" } ] ∧
    (run (mongo strict) db0 Store.empty).final.store.indexes =
      [ { db := "fileUploader", coll := "upload_requests",
          keys := [("clientId", 1), ("uploadId", 1)],
          opts := { unique := true, expireAfterSeconds := none,
                    name := "client_upload_unique" } },
        { db := "fileUploader", coll := "upload_requests",
          keys := [("status", 1), ("updatedAt", 1)],
          opts := { unique := false, expireAfterSeconds := none,
                    name := "status_updated_idx" } },
        { db := "fileUploader", coll := "upload_requests",
          keys := [("createdAt", 1)],
          opts := { unique := false, expireAfterSeconds := some 604800,
                    name := "ttl_idx" } },
        { db := "fileUploader", coll := "file_metadata",
          keys := [("uploadRequestId", 1)],
          opts := { unique := true, expireAfterSeconds := none,
                    name := "upload_request_idx" } },
        { db := "fileUploader", coll := "file_metadata",
          keys := [("checksum", 1), ("clientId", 1)],
          opts := { unique := false, expireAfterSeconds := none,
                    name := "checksum_client_idx" } } ] ∧
    (run (mongo strict) db0 Store.empty).final.store.docs = [] := by
  rw [run_empty]
  exact ⟨rfl, rfl, rfl, rfl, rfl⟩

/-- C7: the script creates exactly one access principal. It has exactly one
`createUser` statement; the user is `fileUploader`, with a password, and its
role list is the single entry `readWrite` on database `fileUploader`. On the
reference datastore, from any datastore state and whatever database the shell
started in, a run adds no user or adds exactly this one, and it adds it to
database `fileUploader`; on the empty datastore this user of `fileUploader` is
the only user afterwards. -/
theorem creates_one_principal (strict : Bool) (db0 : String) (s : Store) :
    mongoInit.filterMap Stmt.userCreated =
      [ { user := "fileUploader", pwd := "password",
          roles := [{ role := "readWrite", db := "fileUploader" }] } ] ∧
    ((run (mongo strict) db0 s).final.store.users = s.users ∨
     (run (mongo strict) db0 s).final.store.users = s.users ++
      [ { db := "fileUploader",
          spec := { user := "fileUploader", pwd := "password",
                    roles := [{ role := "readWrite", db := "fileUploader" }] } } ]) ∧
    (run (mongo strict) db0 Store.empty).final.store.users =
      [ { db := "fileUploader",
          spec := { user := "fileUploader", pwd := "password",
                    roles := [{ role := "readWrite", db := "fileUploader" }] } } ] := by
  refine ⟨rfl, ?_, by rw [run_empty]; rfl⟩
  cases h : createUser "fileUploader" fileUploaderUser s with
  | error e =>
    left
    simp [run, mongoInit, runFrom, step, mongo, h]
  | ok s1 =>
    right
    have hrest : (run (mongo strict) db0 s).final.store =
        (runFrom (mongo strict) (mongoInit.drop 2)
          { db := "fileUploader", store := s1, out := [] }).final.store := by
      simp [run, mongoInit, runFrom, step, mongo, h]
    rw [hrest, runFrom_users strict _ _ (by decide), createUser_ok h]
    rfl

/-- Entries added within database `db` do not show in another database. -/
theorem filter_other_db {α : Type} (dbOf : α → String) (db d : String) (hd : d ≠ db)
    (xs ys : List α) (hys : ∀ y ∈ ys, dbOf y = db) :
    (xs ++ ys).filter (fun x => decide (dbOf x = d)) =
      xs.filter (fun x => decide (dbOf x = d)) := by
  rw [List.filter_append]
  have : ys.filter (fun x => decide (dbOf x = d)) = [] := by
    rw [List.filter_eq_nil_iff]
    intro y hy
    have := hys y hy
    simp only [decide_eq_true_eq]
    intro h
    exact hd (h.symm.trans this)
  rw [this, List.append_nil]

/-- C10: the script changes only the catalog of database `fileUploader`. On
the reference datastore, from every datastore state and whether the run
completes or stops at an error: the stored documents are the same after the run
as before it, and for every database other than `fileUploader` the users, the
collections and the indexes of that database are the same after the run as
before it. -/
theorem run_touches_only_catalog (strict : Bool) (db0 : String) (s : Store) (d : String)
    (hd : d ≠ "fileUploader") :
    (run (mongo strict) db0 s).final.store.docs = s.docs ∧
    (run (mongo strict) db0 s).final.store.users.filter (fun u => decide (u.db = d)) =
      s.users.filter (fun u => decide (u.db = d)) ∧
    (run (mongo strict) db0 s).final.store.collections.filter (fun c => decide (c.db = d)) =
      s.collections.filter (fun c => decide (c.db = d)) ∧
    (run (mongo strict) db0 s).final.store.indexes.filter (fun i => decide (i.db = d)) =
      s.indexes.filter (fun i => decide (i.db = d)) := by
  obtain ⟨hdocs, ⟨us, hu, hudb⟩, ⟨cs, hc, hcdb⟩, ⟨ixs, hi, hidb⟩⟩ := run_grows strict db0 s
  refine ⟨hdocs, ?_, ?_, ?_⟩
  · rw [hu]
    exact filter_other_db UserEntry.db "fileUploader" d hd _ _ hudb
  · rw [hc]
    exact filter_other_db CollEntry.db "fileUploader" d hd _ _ hcdb
  · rw [hi]
    exact filter_other_db IndexEntry.db "fileUploader" d hd _ _ hidb

/-- C10, at a concrete input: a run on a store that has data in `fileUploader`
and a whole database `inventory` leaves the documents and `inventory` alone. -/
theorem run_touches_only_catalog_witness :
    "inventory" ≠ "fileUploader" ∧
    (run (mongo true) "admin" sampleStore).final.store.docs = sampleStore.docs ∧
    (run (mongo true) "admin" sampleStore).final.store.users.filter
        (fun u => decide (u.db = "inventory")) =
      sampleStore.users.filter (fun u => decide (u.db = "inventory")) ∧
    (run (mongo true) "admin" sampleStore).final.store.collections.filter
        (fun c => decide (c.db = "inventory")) =
      sampleStore.collections.filter (fun c => decide (c.db = "inventory")) ∧
    (run (mongo true) "admin" sampleStore).final.store.indexes.filter
        (fun i => decide (i.db = "inventory")) =
      sampleStore.indexes.filter (fun i => decide (i.db = "inventory")) :=
  ⟨by decide, run_touches_only_catalog true "admin" sampleStore "inventory" (by decide)⟩

/-- When the user `fileUploader` of database `fileUploader` exists already, the
run is: `db` is rebound, `createUser` raises the datastore's already-exists
error, and that is the end; the store is as it was and nothing is printed. -/
theorem run_of_existing_user (strict : Bool) (db0 : String) (s : Store)
    (h : hasUser s "fileUploader" "fileUploader" = true) :
    run (mongo strict) db0 s =
      { final := { db := "fileUploader", store := s, out := [] }
        completed := [Stmt.getSiblingDB "fileUploader"]
        raised := some (Stmt.createUser fileUploaderUser,
          MongoError.userAlreadyExists "fileUploader" "fileUploader") } := by
  have hu : createUser "fileUploader" fileUploaderUser s =
      .error (MongoError.userAlreadyExists "fileUploader" "fileUploader") := by
    unfold createUser
    rw [show fileUploaderUser.user = "fileUploader" from rfl, h]
    rfl
  simp [run, mongoInit, runFrom, step, mongo, hu]

/-- After any run, completed or not, the user `fileUploader` of database
`fileUploader` exists. -/
theorem run_hasUser (strict : Bool) (db0 : String) (s : Store) :
    hasUser (run (mongo strict) db0 s).final.store "fileUploader" "fileUploader" = true := by
  cases h : createUser "fileUploader" fileUploaderUser s with
  | error e =>
    have h1 := (createUser_error h).1
    have hrun : (run (mongo strict) db0 s).final.store = s := by
      simp [run, mongoInit, runFrom, step, mongo, h]
    rw [hrun]
    exact h1
  | ok s1 =>
    have hrest : (run (mongo strict) db0 s).final.store =
        (runFrom (mongo strict) (mongoInit.drop 2)
          { db := "fileUploader", store := s1, out := [] }).final.store := by
      simp [run, mongoInit, runFrom, step, mongo, h]
    unfold hasUser
    rw [hrest, runFrom_users strict _ _ (by decide), createUser_ok h]
    simp [fileUploaderUser]

/-- C5 fails as stated: on a datastore that has the principal and nothing else,
the claim promises a run that is not aborted, creates both collections and the
five indexes and prints the success line. In fact, on either release of the
reference datastore, the user creation raises, the error is not caught, no
collection and no index is created and nothing is printed. -/
theorem existing_principal_aborts_run :
    hasUser principalOnlyStore "fileUploader" "fileUploader" = true ∧
    ¬ ((run (mongo true) "admin" principalOnlyStore).raised = none ∧
       (run (mongo true) "admin" principalOnlyStore).final.out = [successLine] ∧
       (run (mongo true) "admin" principalOnlyStore).final.store.collections.length = 2 ∧
       (run (mongo true) "admin" principalOnlyStore).final.store.indexes.length = 5) ∧
    (run (mongo true) "admin" principalOnlyStore).raised =
      some (Stmt.createUser fileUploaderUser,
        MongoError.userAlreadyExists "fileUploader" "fileUploader") ∧
    (run (mongo true) "admin" principalOnlyStore).final.store.collections = [] ∧
    (run (mongo true) "admin" principalOnlyStore).final.store.indexes = [] ∧
    (run (mongo true) "admin" principalOnlyStore).final.out = [] ∧
    (run (mongo false) "admin" principalOnlyStore).raised =
      some (Stmt.createUser fileUploaderUser,
        MongoError.userAlreadyExists "fileUploader" "fileUploader") ∧
    (run (mongo false) "admin" principalOnlyStore).final.out = [] := by
  refine ⟨rfl, ?_, rfl, rfl, rfl, rfl, rfl, rfl⟩
  intro h
  exact absurd h.1 (by decide)

/-- C5, amended: if the access principal `fileUploader` exists already when the
script runs, the user creation raises the datastore's already-exists error and
the run aborts there: the only statement that completed is the rebinding of
`db`, the datastore is exactly as it was (no collection and no index is
created by this run) and the success line is not printed. -/
theorem existing_principal_stops_run (strict : Bool) (db0 : String) (s : Store)
    (h : hasUser s "fileUploader" "fileUploader" = true) :
    (run (mongo strict) db0 s).raised =
      some (Stmt.createUser fileUploaderUser,
        MongoError.userAlreadyExists "fileUploader" "fileUploader") ∧
    (run (mongo strict) db0 s).completed = [Stmt.getSiblingDB "fileUploader"] ∧
    (run (mongo strict) db0 s).final.store = s ∧
    (run (mongo strict) db0 s).final.out = [] := by
  rw [run_of_existing_user strict db0 s h]
  exact ⟨rfl, rfl, rfl, rfl⟩

/-- C5 amended, at a concrete input: the store that holds only the principal. -/
theorem existing_principal_stops_run_witness :
    hasUser principalOnlyStore "fileUploader" "fileUploader" = true ∧
    (run (mongo false) "test" principalOnlyStore).raised =
      some (Stmt.createUser fileUploaderUser,
        MongoError.userAlreadyExists "fileUploader" "fileUploader") ∧
    (run (mongo false) "test" principalOnlyStore).completed =
      [Stmt.getSiblingDB "fileUploader"] ∧
    (run (mongo false) "test" principalOnlyStore).final.store = principalOnlyStore ∧
    (run (mongo false) "test" principalOnlyStore).final.out = [] :=
  ⟨rfl, existing_principal_stops_run false "test" principalOnlyStore rfl⟩

/-- C2 fails as stated: on the empty datastore the first run completes, and the
second run, on the datastore the first one left, raises (on either release of
the reference datastore): the two runs are not both free of errors. -/
theorem second_run_raises :
    ¬ ((run (mongo true) "test" Store.empty).raised = none ∧
       (run (mongo true) "test"
          (run (mongo true) "test" Store.empty).final.store).raised = none) ∧
    ¬ ((run (mongo false) "test" Store.empty).raised = none ∧
       (run (mongo false) "test"
          (run (mongo false) "test" Store.empty).final.store).raised = none) ∧
    (run (mongo true) "test" (run (mongo true) "test" Store.empty).final.store).raised =
      some (Stmt.createUser fileUploaderUser,
        MongoError.userAlreadyExists "fileUploader" "fileUploader") := by
  refine ⟨?_, ?_, rfl⟩
  · intro h
    exact absurd h.2 (by decide)
  · intro h
    exact absurd h.2 (by decide)

/-- C2, amended: for every datastore state, a second run right after a first
one changes nothing, so the catalog (users, collections, indexes) after the
second run equals the catalog after the first and no user, collection or index
is duplicated; but the second run is not free of errors: it stops at the user
creation with the datastore's already-exists error and prints nothing. On the
empty datastore the first run completes without error, and after both runs the
store holds no user, collection or index twice. -/
theorem second_run_changes_nothing (strict : Bool) (db0 db1 : String) (s : Store) :
    (run (mongo strict) db1 (run (mongo strict) db0 s).final.store).final.store =
      (run (mongo strict) db0 s).final.store ∧
    (run (mongo strict) db1 (run (mongo strict) db0 s).final.store).raised =
      some (Stmt.createUser fileUploaderUser,
        MongoError.userAlreadyExists "fileUploader" "fileUploader") ∧
    (run (mongo strict) db1 (run (mongo strict) db0 s).final.store).final.out = [] ∧
    (run (mongo strict) db0 Store.empty).raised = none ∧
    (run (mongo strict) db1
      (run (mongo strict) db0 Store.empty).final.store).final.store.users.Nodup ∧
    (run (mongo strict) db1
      (run (mongo strict) db0 Store.empty).final.store).final.store.collections.Nodup ∧
    (run (mongo strict) db1
      (run (mongo strict) db0 Store.empty).final.store).final.store.indexes.Nodup := by
  have hs := run_of_existing_user strict db1 _ (run_hasUser strict db0 s)
  have he := run_of_existing_user strict db1 _ (run_hasUser strict db0 Store.empty)
  rw [hs, he, run_empty]
  refine ⟨rfl, rfl, rfl, rfl, ?_, ?_, ?_⟩ <;> decide

/-! ### Inserts and expiry after initialization -/

theorem keyOf_upload (a b : Doc) :
    keyOf [("clientId", 1), ("uploadId", 1)] a = keyOf [("clientId", 1), ("uploadId", 1)] b ↔
      sameUpload a b := by
  simp [keyOf, sameUpload]

theorem keyOf_request (a b : Doc) :
    keyOf [("uploadRequestId", 1)] a = keyOf [("uploadRequestId", 1)] b ↔ sameRequest a b := by
  simp [keyOf, sameRequest]

theorem indexesOf_upload (s : Store) (h : s.indexes = initializedStore.indexes) :
    indexesOf s "fileUploader" "upload_requests" = initializedStore.indexes.take 3 := by
  unfold indexesOf
  rw [h]
  rfl

theorem indexesOf_metadata (s : Store) (h : s.indexes = initializedStore.indexes) :
    indexesOf s "fileUploader" "file_metadata" = initializedStore.indexes.drop 3 := by
  unfold indexesOf
  rw [h]
  rfl

theorem indexesOf_other (s : Store) (h : s.indexes = initializedStore.indexes) (coll : String)
    (h1 : coll ≠ "upload_requests") (h2 : coll ≠ "file_metadata") :
    indexesOf s "fileUploader" coll = [] := by
  unfold indexesOf
  rw [h]
  have h1s : ¬ "upload_requests" = coll := fun h => h1 h.symm
  have h2s : ¬ "file_metadata" = coll := fun h => h2 h.symm
  simp [initializedStore, h1s, h2s]

/-- With the script's indexes, an insert into `upload_requests` is checked
against `client_upload_unique` only. -/
theorem violated_upload (s : Store) (h : s.indexes = initializedStore.indexes) (d : Doc) :
    violated s "fileUploader" "upload_requests" d =
      if (docsOf s "fileUploader" "upload_requests").any (fun e => decide (sameUpload e d))
      then initializedStore.indexes.head? else none := by
  unfold violated
  rw [indexesOf_upload s h]
  by_cases hany :
      (docsOf s "fileUploader" "upload_requests").any (fun e => decide (sameUpload e d)) = true
  · simp only [initializedStore, List.take, List.find?, Bool.true_and, keyOf_upload, hany,
      List.head?, if_true]
  · simp only [initializedStore, List.take, List.find?, Bool.true_and, Bool.false_and,
      keyOf_upload, hany, List.head?]
    rfl

/-- With the script's indexes, an insert into `file_metadata` is checked
against `upload_request_idx` only. -/
theorem violated_metadata (s : Store) (h : s.indexes = initializedStore.indexes) (d : Doc) :
    violated s "fileUploader" "file_metadata" d =
      if (docsOf s "fileUploader" "file_metadata").any (fun e => decide (sameRequest e d))
      then initializedStore.indexes[3]? else none := by
  unfold violated
  rw [indexesOf_metadata s h]
  by_cases hany :
      (docsOf s "fileUploader" "file_metadata").any (fun e => decide (sameRequest e d)) = true
  · simp only [initializedStore, List.drop, List.find?, Bool.true_and, keyOf_request, hany,
      if_true]
    rfl
  · simp only [initializedStore, List.drop, List.find?, Bool.true_and, Bool.false_and,
      keyOf_request, hany]
    rfl

theorem violated_other (s : Store) (h : s.indexes = initializedStore.indexes) (coll : String)
    (h1 : coll ≠ "upload_requests") (h2 : coll ≠ "file_metadata") (d : Doc) :
    violated s "fileUploader" coll d = none := by
  unfold violated
  rw [indexesOf_other s h coll h1 h2]
  rfl

theorem ensureCollection_docs (db coll : String) (s : Store) :
    (ensureCollection db coll s).docs = s.docs := by
  unfold ensureCollection
  split <;> rfl

theorem ensureCollection_indexes (db coll : String) (s : Store) :
    (ensureCollection db coll s).indexes = s.indexes := by
  unfold ensureCollection
  split <;> rfl

theorem stored_indexes (db coll : String) (d : Doc) (s : Store) :
    (stored db coll d s).indexes = s.indexes :=
  ensureCollection_indexes db coll s

theorem docsOf_stored_same (db coll : String) (d : Doc) (s : Store) :
    docsOf (stored db coll d s) db coll = docsOf s db coll ++ [d] := by
  simp [docsOf, stored, List.filter_append]

theorem docsOf_stored_other (db coll c2 : String) (d : Doc) (s : Store) (h : coll ≠ c2) :
    docsOf (stored db coll d s) db c2 = docsOf s db c2 := by
  simp [docsOf, stored, List.filter_append, h]

theorem insert_of_violated_none {db coll : String} {d : Doc} {s : Store}
    (h : violated s db coll d = none) : insert db coll d s = .ok (stored db coll d s) := by
  unfold insert
  rw [h]
  rfl

theorem insert_of_violated_some {db coll : String} {d : Doc} {s : Store} {i : IndexEntry}
    (h : violated s db coll d = some i) :
    insert db coll d s = .error (.duplicateKey db coll i.opts.name) := by
  unfold insert
  rw [h]

theorem initialized_consistent (strict : Bool) (db0 : String) :
    Consistent (initialized strict db0) := by
  unfold initialized
  rw [run_empty]
  exact ⟨rfl, List.Pairwise.nil, List.Pairwise.nil⟩

theorem upload_any_false {s : Store} (h : s.indexes = initializedStore.indexes) {d : Doc}
    (hv : violated s "fileUploader" "upload_requests" d = none) :
    ∀ e ∈ docsOf s "fileUploader" "upload_requests", ¬ sameUpload e d := by
  rw [violated_upload s h] at hv
  intro e he hs
  have : (docsOf s "fileUploader" "upload_requests").any (fun e => decide (sameUpload e d))
      = true := List.any_eq_true.2 ⟨e, he, by simpa using hs⟩
  rw [if_pos this] at hv
  simp [initializedStore] at hv

theorem metadata_any_false {s : Store} (h : s.indexes = initializedStore.indexes) {d : Doc}
    (hv : violated s "fileUploader" "file_metadata" d = none) :
    ∀ e ∈ docsOf s "fileUploader" "file_metadata", ¬ sameRequest e d := by
  rw [violated_metadata s h] at hv
  intro e he hs
  have : (docsOf s "fileUploader" "file_metadata").any (fun e => decide (sameRequest e d))
      = true := List.any_eq_true.2 ⟨e, he, by simpa using hs⟩
  rw [if_pos this] at hv
  simp [initializedStore] at hv

/-- Every insert attempt, accepted or rejected, keeps the store consistent. -/
theorem tryInsert_consistent (coll : String) (d : Doc) (s : Store) (h : Consistent s) :
    Consistent (tryInsert "fileUploader" coll d s).1 := by
  cases hv : violated s "fileUploader" coll d with
  | some i =>
    simp only [tryInsert, insert_of_violated_some hv]
    exact h
  | none =>
    simp only [tryInsert, insert_of_violated_none hv]
    refine ⟨(stored_indexes _ _ _ _).trans h.indexes, ?_, ?_⟩
    · by_cases hc : coll = "upload_requests"
      · subst hc
        rw [docsOf_stored_same, List.pairwise_append]
        refine ⟨h.uploads, List.pairwise_singleton _ _, ?_⟩
        intro a ha b hb
        rw [List.mem_singleton] at hb
        subst hb
        exact upload_any_false h.indexes hv a ha
      · rw [docsOf_stored_other _ _ _ _ _ hc]
        exact h.uploads
    · by_cases hc : coll = "file_metadata"
      · subst hc
        rw [docsOf_stored_same, List.pairwise_append]
        refine ⟨h.metadata, List.pairwise_singleton _ _, ?_⟩
        intro a ha b hb
        rw [List.mem_singleton] at hb
        subst hb
        exact metadata_any_false h.indexes hv a ha
      · rw [docsOf_stored_other _ _ _ _ _ hc]
        exact h.metadata

theorem insertAll_consistent (ops : List (String × Doc)) (s : Store) (h : Consistent s) :
    Consistent (insertAll "fileUploader" ops s) := by
  induction ops generalizing s with
  | nil => exact h
  | cons op rest ih =>
    obtain ⟨coll, d⟩ := op
    exact ih _ (tryInsert_consistent coll d s h)

/-- C3: after initialization (the script run on the empty datastore), for every
sequence of insert attempts into database `fileUploader`: no two stored records
of `upload_requests` have the same (clientId, uploadId); inserting a record
whose (clientId, uploadId) equals that of a stored record fails with the
uniqueness violation of `client_upload_unique` and leaves the datastore as it
was; and inserting a record that differs from every stored record in clientId
or in uploadId succeeds and stores it (no other index of `upload_requests`
rejects it). -/
theorem upload_pair_unique (strict : Bool) (db0 : String) (ops : List (String × Doc))
    (d : Doc) :
    (docsOf (insertAll "fileUploader" ops (initialized strict db0))
        "fileUploader" "upload_requests").Pairwise
      (fun a b => ¬ (fieldOf a "clientId" = fieldOf b "clientId" ∧
        fieldOf a "uploadId" = fieldOf b "uploadId")) ∧
    ((∃ e ∈ docsOf (insertAll "fileUploader" ops (initialized strict db0))
          "fileUploader" "upload_requests",
        fieldOf e "clientId" = fieldOf d "clientId" ∧
          fieldOf e "uploadId" = fieldOf d "uploadId") →
      tryInsert "fileUploader" "upload_requests" d
          (insertAll "fileUploader" ops (initialized strict db0)) =
        (insertAll "fileUploader" ops (initialized strict db0),
          some (MongoError.duplicateKey "fileUploader" "upload_requests"
            "client_upload_unique"))) ∧
    ((∀ e ∈ docsOf (insertAll "fileUploader" ops (initialized strict db0))
          "fileUploader" "upload_requests",
        fieldOf e "clientId" ≠ fieldOf d "clientId" ∨
          fieldOf e "uploadId" ≠ fieldOf d "uploadId") →
      ∃ s1, insert "fileUploader" "upload_requests" d
          (insertAll "fileUploader" ops (initialized strict db0)) = .ok s1 ∧
        docsOf s1 "fileUploader" "upload_requests" =
          docsOf (insertAll "fileUploader" ops (initialized strict db0))
            "fileUploader" "upload_requests" ++ [d]) := by
  have hc := insertAll_consistent ops _ (initialized_consistent strict db0)
  generalize insertAll "fileUploader" ops (initialized strict db0) = s at hc ⊢
  refine ⟨hc.uploads, ?_, ?_⟩
  · rintro ⟨e, he, hs⟩
    have hany : (docsOf s "fileUploader" "upload_requests").any
        (fun e => decide (sameUpload e d)) = true :=
      List.any_eq_true.2 ⟨e, he, by simpa [sameUpload] using hs⟩
    have hv := violated_upload s hc.indexes d
    rw [if_pos hany] at hv
    simp only [tryInsert, insert_of_violated_some hv]
  · intro hall
    have hany : ¬ (docsOf s "fileUploader" "upload_requests").any
        (fun e => decide (sameUpload e d)) = true := by
      intro h
      obtain ⟨e, he, hs⟩ := List.any_eq_true.1 h
      have hs : sameUpload e d := by simpa using hs
      rcases hall e he with h1 | h1
      · exact h1 hs.1
      · exact h1 hs.2
    have hv := violated_upload s hc.indexes d
    rw [if_neg hany] at hv
    exact ⟨_, insert_of_violated_none hv, docsOf_stored_same _ _ _ _⟩

/-- C3, at concrete inputs: after the three sample attempts two records are
stored; a further record with the pair (c1, u2) is rejected, and one with the
pair (c2, u2), which differs in clientId only, is accepted. -/
theorem upload_pair_unique_witness :
    (docsOf (insertAll "fileUploader" sampleUploads (initialized true "test"))
        "fileUploader" "upload_requests").length = 2 ∧
    tryInsert "fileUploader" "upload_requests"
        [("clientId", Value.str "c1"), ("uploadId", Value.str "u2")]
        (insertAll "fileUploader" sampleUploads (initialized true "test")) =
      (insertAll "fileUploader" sampleUploads (initialized true "test"),
        some (MongoError.duplicateKey "fileUploader" "upload_requests"
          "client_upload_unique")) ∧
    (∃ s1, insert "fileUploader" "upload_requests"
        [("clientId", Value.str "c2"), ("uploadId", Value.str "u2")]
        (insertAll "fileUploader" sampleUploads (initialized true "test")) = .ok s1 ∧
      docsOf s1 "fileUploader" "upload_requests" =
        docsOf (insertAll "fileUploader" sampleUploads (initialized true "test"))
          "fileUploader" "upload_requests" ++
          [[("clientId", Value.str "c2"), ("uploadId", Value.str "u2")]]) :=
  ⟨by decide,
   (upload_pair_unique true "test" sampleUploads
      [("clientId", Value.str "c1"), ("uploadId", Value.str "u2")]).2.1
      ⟨[("clientId", Value.str "c1"), ("uploadId", Value.str "u2")], by decide, by decide⟩,
   (upload_pair_unique true "test" sampleUploads
      [("clientId", Value.str "c2"), ("uploadId", Value.str "u2")]).2.2 (by decide)⟩

/-- C4: after initialization, for every sequence of insert attempts into
database `fileUploader`: no two stored records of `file_metadata` have the same
uploadRequestId; inserting a record whose uploadRequestId equals that of a
stored record fails with the uniqueness violation of `upload_request_idx` and
leaves the datastore as it was; and two records `a` and `b` that share
(checksum, clientId) but differ in uploadRequestId, neither uploadRequestId
being stored yet, are both accepted, one after the other (`checksum_client_idx`
rejects nothing). -/
theorem metadata_request_unique (strict : Bool) (db0 : String) (ops : List (String × Doc))
    (d a b : Doc) :
    (docsOf (insertAll "fileUploader" ops (initialized strict db0))
        "fileUploader" "file_metadata").Pairwise
      (fun x y => fieldOf x "uploadRequestId" ≠ fieldOf y "uploadRequestId") ∧
    ((∃ e ∈ docsOf (insertAll "fileUploader" ops (initialized strict db0))
          "fileUploader" "file_metadata",
        fieldOf e "uploadRequestId" = fieldOf d "uploadRequestId") →
      tryInsert "fileUploader" "file_metadata" d
          (insertAll "fileUploader" ops (initialized strict db0)) =
        (insertAll "fileUploader" ops (initialized strict db0),
          some (MongoError.duplicateKey "fileUploader" "file_metadata"
            "upload_request_idx"))) ∧
    (fieldOf a "checksum" = fieldOf b "checksum" →
      fieldOf a "clientId" = fieldOf b "clientId" →
      fieldOf a "uploadRequestId" ≠ fieldOf b "uploadRequestId" →
      (∀ e ∈ docsOf (insertAll "fileUploader" ops (initialized strict db0))
          "fileUploader" "file_metadata",
        fieldOf e "uploadRequestId" ≠ fieldOf a "uploadRequestId" ∧
          fieldOf e "uploadRequestId" ≠ fieldOf b "uploadRequestId") →
      ∃ s1 s2, insert "fileUploader" "file_metadata" a
          (insertAll "fileUploader" ops (initialized strict db0)) = .ok s1 ∧
        insert "fileUploader" "file_metadata" b s1 = .ok s2 ∧
        docsOf s2 "fileUploader" "file_metadata" =
          docsOf (insertAll "fileUploader" ops (initialized strict db0))
            "fileUploader" "file_metadata" ++ [a, b]) := by
  have hc := insertAll_consistent ops _ (initialized_consistent strict db0)
  generalize insertAll "fileUploader" ops (initialized strict db0) = s at hc ⊢
  refine ⟨hc.metadata, ?_, ?_⟩
  · rintro ⟨e, he, hs⟩
    have hany : (docsOf s "fileUploader" "file_metadata").any
        (fun e => decide (sameRequest e d)) = true :=
      List.any_eq_true.2 ⟨e, he, by simpa [sameRequest] using hs⟩
    have hv := violated_metadata s hc.indexes d
    rw [if_pos hany] at hv
    simp only [tryInsert, insert_of_violated_some hv]
    rfl
  · intro _ _ hab hall
    have hany : ¬ (docsOf s "fileUploader" "file_metadata").any
        (fun e => decide (sameRequest e a)) = true := by
      intro h
      obtain ⟨e, he, hs⟩ := List.any_eq_true.1 h
      have hs : sameRequest e a := by simpa using hs
      exact (hall e he).1 hs
    have hv := violated_metadata s hc.indexes a
    rw [if_neg hany] at hv
    have hany2 : ¬ (docsOf (stored "fileUploader" "file_metadata" a s)
        "fileUploader" "file_metadata").any (fun e => decide (sameRequest e b)) = true := by
      intro h
      obtain ⟨e, he, hs⟩ := List.any_eq_true.1 h
      have hs : sameRequest e b := by simpa using hs
      rw [docsOf_stored_same, List.mem_append, List.mem_singleton] at he
      rcases he with he | he
      · exact (hall e he).2 hs
      · subst he
        exact hab hs
    have hv2 := violated_metadata (stored "fileUploader" "file_metadata" a s)
      ((stored_indexes _ _ _ _).trans hc.indexes) b
    rw [if_neg hany2] at hv2
    refine ⟨_, _, insert_of_violated_none hv, insert_of_violated_none hv2, ?_⟩
    rw [docsOf_stored_same, docsOf_stored_same, List.append_assoc]
    rfl

/-- C4, at concrete inputs: with the record for request `r1` stored, another
record for `r1` is rejected, and two records with the stored record's checksum
and client, for requests `r2` and `r3`, are both accepted. -/
theorem metadata_request_unique_witness :
    tryInsert "fileUploader" "file_metadata"
        [("uploadRequestId", Value.str "r1"), ("checksum", Value.str "xyz")]
        (insertAll "fileUploader" sampleMetadata (initialized false "test")) =
      (insertAll "fileUploader" sampleMetadata (initialized false "test"),
        some (MongoError.duplicateKey "fileUploader" "file_metadata" "upload_request_idx")) ∧
    (∃ s1 s2, insert "fileUploader" "file_metadata"
        [("uploadRequestId", Value.str "r2"), ("checksum", Value.str "abc"),
          ("clientId", Value.str "c1")]
        (insertAll "fileUploader" sampleMetadata (initialized false "test")) = .ok s1 ∧
      insert "fileUploader" "file_metadata"
        [("uploadRequestId", Value.str "r3"), ("checksum", Value.str "abc"),
          ("clientId", Value.str "c1")] s1 = .ok s2 ∧
      docsOf s2 "fileUploader" "file_metadata" =
        docsOf (insertAll "fileUploader" sampleMetadata (initialized false "test"))
          "fileUploader" "file_metadata" ++
          [[("uploadRequestId", Value.str "r2"), ("checksum", Value.str "abc"),
              ("clientId", Value.str "c1")],
           [("uploadRequestId", Value.str "r3"), ("checksum", Value.str "abc"),
              ("clientId", Value.str "c1")]]) :=
  ⟨(metadata_request_unique false "test" sampleMetadata
      [("uploadRequestId", Value.str "r1"), ("checksum", Value.str "xyz")]
      [] []).2.1
      ⟨[("uploadRequestId", Value.str "r1"), ("checksum", Value.str "abc"),
          ("clientId", Value.str "c1")], by decide, by decide⟩,
   (metadata_request_unique false "test" sampleMetadata []
      [("uploadRequestId", Value.str "r2"), ("checksum", Value.str "abc"),
        ("clientId", Value.str "c1")]
      [("uploadRequestId", Value.str "r3"), ("checksum", Value.str "abc"),
        ("clientId", Value.str "c1")]).2.2 (by decide) (by decide) (by decide) (by decide)⟩

theorem initialized_indexes (strict : Bool) (db0 : String) :
    (initialized strict db0).indexes = initializedStore.indexes := by
  unfold initialized
  rw [run_empty]

/-- With the script's indexes, a record of `upload_requests` is due exactly
when `ttl_idx` makes it due. -/
theorem due_upload (s : Store) (h : s.indexes = initializedStore.indexes) (t : Int) (d : Doc) :
    ((indexesOf s "fileUploader" "upload_requests").any fun i => isExpired t i d) =
      match fieldOf d "createdAt" with
      | .date c => decide (c + 604800 < t)
      | _ => false := by
  rw [indexesOf_upload s h]
  simp [initializedStore, isExpired]

/-- With the script's indexes, no record of `file_metadata` is ever due. -/
theorem due_metadata (s : Store) (h : s.indexes = initializedStore.indexes) (t : Int) (d : Doc) :
    ((indexesOf s "fileUploader" "file_metadata").any fun i => isExpired t i d) = false := by
  rw [indexesOf_metadata s h]
  simp [initializedStore, isExpired]

/-- C8: the only expiring index the script creates is `ttl_idx`, on the single
field createdAt of `upload_requests`, with expiry offset 604800 seconds, which
is 7 * 24 * 60 * 60, seven days. On any datastore that has the script's
indexes, an expiry step at clock time `t` treats a stored record `e` of
database `fileUploader` so: if `e` is in `upload_requests` with timestamp
createdAt = c and c + 604800 < t, it is removed; if c + 604800 > t, it is kept;
and if `e` is in `file_metadata`, it is kept. -/
theorem ttl_expiry (strict : Bool) (db0 : String) (s : Store) (t : Int) (e : DocEntry)
    (hidx : s.indexes = (initialized strict db0).indexes) (he : e ∈ s.docs)
    (hdb : e.db = "fileUploader") :
    (initialized strict db0).indexes.filter (fun i => i.opts.expireAfterSeconds.isSome) =
      [ { db := "fileUploader", coll := "upload_requests", keys := [("createdAt", 1)],
          opts := { unique := false, expireAfterSeconds := some (7 * 24 * 60 * 60),
                    name := "ttl_idx" } } ] ∧
    (604800 : Nat) = 7 * 24 * 60 * 60 ∧
    (∀ c : Int, e.coll = "upload_requests" → fieldOf e.doc "createdAt" = Value.date c →
      c + 604800 < t → e ∉ (expire t s).docs) ∧
    (∀ c : Int, e.coll = "upload_requests" → fieldOf e.doc "createdAt" = Value.date c →
      c + 604800 > t → e ∈ (expire t s).docs) ∧
    (e.coll = "file_metadata" → e ∈ (expire t s).docs) := by
  rw [initialized_indexes] at hidx
  refine ⟨by rw [initialized_indexes]; rfl, rfl, ?_, ?_, ?_⟩
  · intro c hcoll hc hlt hmem
    simp only [expire, List.mem_filter] at hmem
    have h2 := hmem.2
    rw [hdb, hcoll, due_upload s hidx, hc] at h2
    simp [hlt] at h2
  · intro c hcoll hc hgt
    simp only [expire, List.mem_filter]
    refine ⟨he, ?_⟩
    rw [hdb, hcoll, due_upload s hidx, hc]
    have : ¬ c + 604800 < t := by omega
    simp [this]
  · intro hcoll
    simp only [expire, List.mem_filter]
    refine ⟨he, ?_⟩
    rw [hdb, hcoll, due_metadata s hidx]
    rfl

/-- C8, at concrete inputs: at clock time 605801 the request created at time
1000 is due (1000 + 604800 < 605801) and is removed; the two other records,
the younger request and the metadata record of the same age, stay. -/
theorem ttl_expiry_witness :
    sampleExpiryStore.indexes = (initialized true "test").indexes ∧
    staleRequest ∈ sampleExpiryStore.docs ∧
    staleRequest.db = "fileUploader" ∧
    staleRequest.coll = "upload_requests" ∧
    fieldOf staleRequest.doc "createdAt" = Value.date 1000 ∧
    (1000 : Int) + 604800 < 605801 ∧
    staleRequest ∉ (expire 605801 sampleExpiryStore).docs ∧
    (expire 605801 sampleExpiryStore).docs = sampleExpiryStore.docs.tail :=
  ⟨rfl, by decide, rfl, rfl, rfl, by decide,
   (ttl_expiry true "test" sampleExpiryStore 605801 staleRequest rfl (by decide) rfl).2.2.1
      1000 rfl rfl (by decide),
   by decide⟩

end MongoInit
